import Mathlib

/-!
Shallow embedding of the CUMULO tile-extraction core
(src/src/tile_extraction.py) and proofs of the specification claims.

A swath is a 3-d numeric array indexed (band, row, column).  Python / numpy
behaviour that the claims depend on is modelled explicitly:

* slicing `a[s:e]` normalises negative indices by adding the axis length and
  clamps to `[0, n]` (`sliceIdxs`);
* `np.stack` fails on an empty list and on arrays of unequal shape
  (`npStack` returns `none` in exactly those cases);
* `np.arange(start, stop, step)` enumerates `start + i*step < stop`;
* `random.randint(a, b)` is inclusive on both ends and fails when `b < a`;
* the process-wide `random` state is modelled as a stream `Nat → Nat` of
  draws, passed to every entry point; `np.random.shuffle` is modelled as a
  draw-directed selection permutation (`pyShuffle`).

Array cell values are integers; numpy truthiness of a value is `≠ 0`.
-/

namespace Cumulo

/-- A MODIS swath array: `bands × rows × cols` cells of numeric data,
indexed (band, row, column).  `data` is total; all accesses the code
performs are normalised to in-range indices first. -/
structure Swath where
  bands : Nat
  rows : Nat
  cols : Nat
  data : Nat → Nat → Nat → Int

/-- Normalise a possibly negative Python index against axis length `n`. -/
def pyIdx (n : Nat) (i : Int) : Nat :=
  if i < 0 then (i + n).toNat else i.toNat

/-- Row/column indices selected by the Python slice `a[s:e]` on an axis of
length `n`: negative bounds wrap by `n`, then both bounds clamp to `[0, n]`. -/
def sliceIdxs (n : Nat) (s e : Int) : List Nat :=
  let lo : Nat := if s < 0 then (max (s + n) 0).toNat else min s.toNat n
  let hi : Nat := if e < 0 then (max (e + n) 0).toNat else min e.toNat n
  List.range' lo (hi - lo)

/-- A tile: band-major nested list, `tile[band][row][col]`. -/
abbrev Tile := List (List (List Int))

/-- Tile metadata: the two half-open slice ranges
`((row_start, row_end), (col_start, col_end))` recorded by the samplers. -/
abbrev Meta := (Int × Int) × (Int × Int)

/-- The sub-window `swath[:, r0:r1, c0:c1]` across all bands. -/
def sliceTile (sw : Swath) (r0 r1 c0 c1 : Int) : Tile :=
  (List.range sw.bands).map fun b =>
    (sliceIdxs sw.rows r0 r1).map fun r =>
      (sliceIdxs sw.cols c0 c1).map fun c => sw.data b r c

/-- Structural dimensions of a tile; two regular (numpy-shaped) tiles have
equal `tileDims` exactly when numpy considers their shapes equal. -/
def tileDims (t : Tile) : Nat × List Nat × List (List Nat) :=
  (t.length, t.map List.length, t.map fun p => p.map List.length)

/-- Model of `np.stack`: fails (`none`) on an empty list and on tiles of
unequal shape, otherwise returns the stacked list unchanged. -/
def npStack (l : List Tile) : Option (List Tile) :=
  match l with
  | [] => none
  | t :: ts => if ts.all fun u => decide (tileDims u = tileDims t)
               then some (t :: ts) else none

/-- Offset computation shared verbatim by all four samplers
(source lines 32-36, 116-120, 186-190, 257-261):
`offset = tile_size // 2`; `offset_2 = offset + 1` when `tile_size` is even,
else `offset`. -/
def tileOffsets (tile_size : Nat) : Nat × Nat :=
  let offset := tile_size / 2
  let offset_2 := if tile_size % 2 = 0 then offset + 1 else offset
  (offset, offset_2)

/-- Python `range(a, b)` for a natural start and integer stop. -/
def pyRange (a : Nat) (b : Int) : List Nat :=
  List.range' a (b - a).toNat

/-- Model of `np.arange(start, stop, step)` for natural start/step and
integer stop; a zero step is an error in numpy and the callers guard it. -/
def npArange (start : Nat) (stop : Int) (step : Nat) : List Nat :=
  if stop ≤ start ∨ step = 0 then []
  else
    let n := ((stop - start).toNat + step - 1) / step
    (List.range n).map fun i => start + i * step

/-- Stream of pseudo-random draws modelling the process-wide state of the
Python `random` / `np.random` modules. -/
abbrev RNG := Nat → Nat

/-- Python `random.randint(a, b)`: inclusive on both ends, fails when
`b < a`; the draw `r` selects the value deterministically. -/
def randint (a b : Int) (r : Nat) : Option Int :=
  if b < a then none else some (a + ((r % (b - a + 1).toNat : Nat) : Int))

/-- The tile cut at centre `(r, c)`: source slice
`swath[band, r-offset : r+offset_2+1, c-offset : c+offset_2+1]` over all
bands (lines 52-55, 151-154, 230-233, 283-286). -/
def tileAt (sw : Swath) (offset offset_2 : Nat) (r c : Int) : Tile :=
  sliceTile sw (r - offset) (r + offset_2 + 1) (c - offset) (c + offset_2 + 1)

/-- The metadata recorded for the tile at centre `(r, c)`
(lines 59-62, 158-160, 235-237, 288-290). -/
def metaAt (offset offset_2 : Nat) (r c : Int) : Meta :=
  ((r - offset, r + offset_2 + 1), (c - offset, c + offset_2 + 1))

/-- Per-centre tile and metadata construction followed by `np.stack`,
shared verbatim by all four samplers: one tile and one metadata entry per
centre, in centre order, then the payload list is stacked. -/
def assemble (sw : Swath) (offset offset_2 : Nat) (centers : List (Int × Int)) :
    Option (List Tile × List Meta) :=
  let payload := centers.map fun p => tileAt sw offset offset_2 p.1 p.2
  let metadata := centers.map fun p => metaAt offset offset_2 p.1 p.2
  (npStack payload).map fun st => (st, metadata)

/-- One loop iteration of the uniform random sampler (lines 45-48): choose
one of the two half-swath column ranges, then an inclusive-uniform column
within it.  Iteration `k` consumes draws `2k` (the `random.choice`) and
`2k+1` (the `random.randint`). -/
def randomCenterCol (sw : Swath) (offset : Nat) (rng : RNG) (k : Nat) : Option Int :=
  let range1 : Int × Int := ((offset : Int) + 1, (sw.cols / 2 : Nat) - ((offset : Int) + 1))
  let range2 : Int × Int := ((sw.cols / 2 : Nat) + ((offset : Int) + 1), (sw.cols : Int) - (offset + 1))
  let chosen := if rng (2 * k) % 2 = 0 then range1 else range2
  randint chosen.1 chosen.2 (rng (2 * k + 1))

/-- Centre sequence of the uniform random sampler: one centre per row in
`range(offset+1, swath_length-(offset+1))` (line 41), with the random
column of that iteration; fails if any `randint` call fails. -/
def randomCenters (sw : Swath) (tile_size : Nat) (rng : RNG) :
    Option (List (Int × Int)) :=
  let offset := (tileOffsets tile_size).1
  (pyRange (offset + 1) ((sw.rows : Int) - (offset + 1))).enum.mapM fun kv =>
    (randomCenterCol sw offset rng kv.1).map fun h => ((kv.2 : Int), h)

/-- Source `random_tile_extract_from_file` (lines 5-69): one tile per valid
row at a random column, metadata alongside, stacked at the end.  The
nan-completeness check (lines 19-30) only prints and is not modelled. -/
def random_tile_extract_from_file (sw : Swath) (tile_size : Nat) (rng : RNG) :
    Option (List Tile × List Meta) := do
  let centers ← randomCenters sw tile_size rng
  assemble sw (tileOffsets tile_size).1 (tileOffsets tile_size).2 centers

/-- Centre grid of the strided sampler (lines 125-143): column centres are
the concatenation of the two strided half ranges, row centres the strided
vertical range; Cartesian product in row-major order. -/
def stridingCenters (sw : Swath) (tile_size stride : Nat) : List (Nat × Nat) :=
  let offset := (tileOffsets tile_size).1
  let lower_breadth_range := npArange (offset + 1) ((sw.cols / 2 : Nat) - ((offset : Int) + 1)) stride
  let upper_breadth_range := npArange (sw.cols / 2 + (offset + 1)) ((sw.cols : Int) - (offset + 1)) stride
  let horizontal_pixels := lower_breadth_range ++ upper_breadth_range
  let vertical_pixels := npArange (offset + 1) ((sw.rows : Int) - (offset + 1)) stride
  vertical_pixels.flatMap fun v => horizontal_pixels.map fun h => (v, h)

/-- Source `striding_tile_extract_from_file` (lines 72-167).  The `rng`
argument models the process-wide random state: the source body contains no
random call, so the result never depends on it.  A zero stride is a numpy
`arange` error, modelled as `none`. -/
def striding_tile_extract_from_file (sw : Swath) (tile_size stride : Nat)
    (_rng : RNG) : Option (List Tile × List Meta) :=
  if stride = 0 then none
  else
    assemble sw (tileOffsets tile_size).1 (tileOffsets tile_size).2
      ((stridingCenters sw tile_size stride).map fun p => ((p.1 : Int), (p.2 : Int)))

/-- Candidate grid of the cloud-masked sampler (lines 195-216): as the
strided grid but with `offset_2 + 1` clearance at the stop bounds. -/
def cloudCandidates (sw : Swath) (tile_size stride : Nat) : List (Nat × Nat) :=
  let offset := (tileOffsets tile_size).1
  let offset_2 := (tileOffsets tile_size).2
  let lower_breadth_range := npArange (offset + 1) ((sw.cols / 2 : Nat) - ((offset_2 : Int) + 1)) stride
  let upper_breadth_range := npArange (sw.cols / 2 + (offset + 1)) ((sw.cols : Int) - (offset_2 + 1)) stride
  let horizontal_pixels := lower_breadth_range ++ upper_breadth_range
  let vertical_pixels := npArange (offset + 1) ((sw.rows : Int) - (offset_2 + 1)) stride
  vertical_pixels.flatMap fun v => horizontal_pixels.map fun h => (v, h)

/-- The designated cloud-mask value at position `(r, c)`: band index `-9`
from the end of the band axis (lines 214, 265). -/
def maskVal (sw : Swath) (r c : Nat) : Int :=
  sw.data (pyIdx sw.bands (-9)) r c

/-- Candidates retained by the boolean mask (lines 218-220): those whose
mask-band value is truthy. -/
def cloudMasked (sw : Swath) (tile_size stride : Nat) : List (Nat × Nat) :=
  (cloudCandidates sw tile_size stride).filter fun p => maskVal sw p.1 p.2 != 0

/-- Draw-directed selection permutation modelling `np.random.shuffle`
(line 222): draw `k` picks the next element of the remaining list.  The
first argument is fuel; `pyShuffle` supplies the list length, which the
recursion never exhausts. -/
def shuffleStep (rng : RNG) : Nat → Nat → List (Nat × Nat) → List (Nat × Nat)
  | _, _, [] => []
  | 0, _, l => l
  | fuel + 1, k, a :: as =>
    let l := a :: as
    let i := rng k % l.length
    l.get ⟨i, Nat.mod_lt _ (Nat.succ_pos as.length)⟩ ::
      shuffleStep rng fuel (k + 1) (l.eraseIdx i)

/-- Model of `np.random.shuffle` on the candidate list. -/
def pyShuffle (rng : RNG) (l : List (Nat × Nat)) : List (Nat × Nat) :=
  shuffleStep rng l.length 0 l

/-- Source `extract_random_sample_where_clouds` (lines 170-244): mask the
strided candidate grid with the cloud band, shuffle, take the first
`number_of_labels` positions and extract there.  The source names the row
coordinate `horizontal_pos` (`coord[0]`) and the column coordinate
`vertical_pos` (`coord[1]`); slicing uses `coord[0]` on the row axis and
`coord[1]` on the column axis (lines 226-237). -/
def extract_random_sample_where_clouds (sw : Swath)
    (number_of_labels tile_size stride : Nat) (rng : RNG) :
    Option (List Tile × List Meta) :=
  if stride = 0 then none
  else
    assemble sw (tileOffsets tile_size).1 (tileOffsets tile_size).2
      (((pyShuffle rng (cloudMasked sw tile_size stride)).take number_of_labels).map
        fun p => ((p.1 : Int), (p.2 : Int)))

/-- Band indices of the label-channel block `swath_array[-8:]` (line 265). -/
def labelBandIdxs (sw : Swath) : List Nat :=
  sliceIdxs sw.bands (-8) (sw.bands : Int)

/-- Sum across the label-channel block at position `(r, c)` (line 265). -/
def labelSum (sw : Swath) (r c : Nat) : Int :=
  ((labelBandIdxs sw).map fun b => sw.data b r c).sum

/-- Positivity condition of line 265: the label-block sum is positive and
the cloud-mask band is truthy. -/
def labelCondB (sw : Swath) (r c : Nat) : Bool :=
  decide (0 < labelSum sw r c) && (maskVal sw r c != 0)

/-- Qualifying positions in `np.where` row-major order (lines 265-268); the
source names the row coordinates `horizontal_pos` (`label_indexes[0]`) and
the column coordinates `vertical_pos` (`label_indexes[1]`). -/
def qualPositions (sw : Swath) : List (Nat × Nat) :=
  (List.range sw.rows).flatMap fun r =>
    ((List.range sw.cols).filter fun c => labelCondB sw r c).map fun c => (r, c)

/-- Qualifying positions surviving the row-axis edge guards of lines
275-279: skip when `row < offset` or `row > swath_length - offset_2`. -/
def labelKept (sw : Swath) (tile_size : Nat) : List (Nat × Nat) :=
  (qualPositions sw).filter fun p =>
    !(decide ((p.1 : Nat) < (tileOffsets tile_size).1)) &&
    !(decide (((p.1 : Nat) : Int) > (sw.rows : Int) - (tileOffsets tile_size).2))

/-- Source `extract_label_tiles` (lines 247-297): one tile and metadata
entry per surviving qualifying position, stacked at the end. -/
def extract_label_tiles (sw : Swath) (tile_size : Nat) :
    Option (List Tile × List Meta) :=
  assemble sw (tileOffsets tile_size).1 (tileOffsets tile_size).2
    ((labelKept sw tile_size).map fun p => ((p.1 : Int), (p.2 : Int)))

/-- Distinguishable failure conditions of the balanced-pair path: the
explicit shape-mismatch `ValueError` of line 310, versus the `ValueError`
raised by `np.stack` inside a sampler. -/
inductive ExtractErr where
  | shapeError : ExtractErr
  | stackError : ExtractErr
deriving DecidableEq, Repr

/-- Source `extract_labels_and_cloud_tiles` (lines 300-325): validate the
fixed label-bearing shape, extract the labelled set, then request an
equally sized cloud-masked random set. -/
def extract_labels_and_cloud_tiles (sw : Swath) (tile_size stride : Nat)
    (rng : RNG) : Except ExtractErr (List Tile × List Tile × List Meta × List Meta) :=
  if sw.bands = 27 ∧ sw.rows = 2030 ∧ sw.cols = 1350 then
    match extract_label_tiles sw tile_size with
    | none => .error .stackError
    | some (labelled_payload, labelled_metadata) =>
      match extract_random_sample_where_clouds sw labelled_payload.length
              tile_size stride rng with
      | none => .error .stackError
      | some (unlabelled_payload, unlabelled_metadata) =>
        .ok (labelled_payload, unlabelled_payload, labelled_metadata, unlabelled_metadata)
  else
    .error .shapeError

/-! ### Concrete fixtures used by witnesses and counterexamples -/

/-- Deterministic draw stream: every draw is 0. -/
def rngZero : RNG := fun _ => 0

/-- A 9-band 6x12 swath.  The mask band (band index `-9`, here band 0) is
truthy at positions (2,2) and (3,8); the first label band (band 1) is
positive at (2,2) only. -/
def swFix : Swath :=
  ⟨9, 6, 12, fun b r c =>
    if b = 0 ∧ ((r = 2 ∧ c = 2) ∨ (r = 3 ∧ c = 8)) then 1
    else if b = 1 ∧ r = 2 ∧ c = 2 then 1 else 0⟩

/-- One-band 6x12 swath with pairwise distinct cell values. -/
def swGrid : Swath := ⟨1, 6, 12, fun _ r c => (r : Int) * 16 + c⟩

/-- A 9-band all-zero swath: no qualifying label position and no cloudy
candidate anywhere. -/
def swZero : Swath := ⟨9, 6, 12, fun _ _ _ => 0⟩

/-- A 9-band 5x3 swath exercising the bottom-edge guard of
`extract_label_tiles`: qualifying positions at (2,1) and (4,1), the latter
in the last row. -/
def swEdge : Swath :=
  ⟨9, 5, 3, fun b r c =>
    if (r = 2 ∨ r = 4) ∧ c = 1 ∧ (b = 0 ∨ b = 1) then 1 else 0⟩

/-- Concrete output of the uniform random sampler on `swFix`. -/
def outRandomFix : List Tile × List Meta :=
  (random_tile_extract_from_file swFix 3 rngZero).getD ([], [])

/-- Concrete output of the strided sampler on `swFix`. -/
def outStridingFix : List Tile × List Meta :=
  (striding_tile_extract_from_file swFix 3 1 rngZero).getD ([], [])

/-- Concrete output of the cloud-masked sampler on `swFix`, two tiles
requested. -/
def outCloudsFix : List Tile × List Meta :=
  (extract_random_sample_where_clouds swFix 2 3 1 rngZero).getD ([], [])

/-- Concrete output of the cloud-masked sampler on `swFix` when more tiles
are requested than cloudy candidates exist. -/
def outCloudsAll : List Tile × List Meta :=
  (extract_random_sample_where_clouds swFix 5 3 1 rngZero).getD ([], [])

/-- Concrete output of the label extractor on `swFix`. -/
def outLabelFix : List Tile × List Meta :=
  (extract_label_tiles swFix 3).getD ([], [])

/-- Concrete output of the strided sampler on `swGrid`. -/
def outStridingGrid : List Tile × List Meta :=
  (striding_tile_extract_from_file swGrid 3 1 rngZero).getD ([], [])

/-- Concrete centre list of the uniform random sampler on `swGrid`. -/
def csRandomGrid : List (Int × Int) :=
  (randomCenters swGrid 3 rngZero).getD []

/-! ### Basic inversion and permutation lemmas -/

theorem npStack_eq_some {l st : List Tile} (h : npStack l = some st) :
    st = l ∧ l ≠ [] := by
  cases l with
  | nil => simp [npStack] at h
  | cons t ts =>
    refine ⟨?_, by simp⟩
    simp only [npStack] at h
    by_cases hc : (ts.all fun u => decide (tileDims u = tileDims t)) = true
    · rw [if_pos hc] at h
      exact (Option.some_inj.mp h).symm
    · rw [if_neg hc] at h
      exact absurd h (by simp)

theorem npStack_eq_some_self {t : Tile} {ts : List Tile}
    (h : ∀ u ∈ t :: ts, tileDims u = tileDims t) :
    npStack (t :: ts) = some (t :: ts) := by
  have hc : (ts.all fun u => decide (tileDims u = tileDims t)) = true :=
    List.all_eq_true.mpr fun u hu => decide_eq_true (h u (List.mem_cons_of_mem _ hu))
  simp [npStack, hc]

theorem assemble_eq_some {sw : Swath} {o1 o2 : Nat} {cs : List (Int × Int)}
    {out : List Tile × List Meta} (h : assemble sw o1 o2 cs = some out) :
    out.1 = cs.map (fun p => tileAt sw o1 o2 p.1 p.2) ∧
    out.2 = cs.map (fun p => metaAt o1 o2 p.1 p.2) ∧ cs ≠ [] := by
  unfold assemble at h
  rw [Option.map_eq_some'] at h
  obtain ⟨st, hst, hout⟩ := h
  obtain ⟨hst_eq, hne⟩ := npStack_eq_some hst
  subst hout hst_eq
  refine ⟨rfl, rfl, ?_⟩
  intro hcs
  subst hcs
  simp at hne

theorem assemble_eq_some_self {sw : Swath} {o1 o2 : Nat} {cs : List (Int × Int)}
    (hne : cs ≠ [])
    (hd : ∀ p ∈ cs, ∀ q ∈ cs,
      tileDims (tileAt sw o1 o2 p.1 p.2) = tileDims (tileAt sw o1 o2 q.1 q.2)) :
    assemble sw o1 o2 cs =
      some (cs.map (fun p => tileAt sw o1 o2 p.1 p.2),
            cs.map (fun p => metaAt o1 o2 p.1 p.2)) := by
  cases cs with
  | nil => exact absurd rfl hne
  | cons c cs' =>
    have hstack : npStack (tileAt sw o1 o2 c.1 c.2 ::
        cs'.map fun p => tileAt sw o1 o2 p.1 p.2) =
        some (tileAt sw o1 o2 c.1 c.2 :: cs'.map fun p => tileAt sw o1 o2 p.1 p.2) := by
      refine npStack_eq_some_self ?_
      intro u hu
      rcases List.mem_cons.mp hu with rfl | hu'
      · rfl
      · obtain ⟨p, hp, rfl⟩ := List.mem_map.mp hu'
        exact hd p (List.mem_cons_of_mem _ hp) c (List.mem_cons_self _ _)
    simp [assemble, hstack]

theorem mapM_option_mem {α β : Type} {f : α → Option β} :
    ∀ {l : List α} {ys : List β}, l.mapM f = some ys →
      ∀ y ∈ ys, ∃ x ∈ l, f x = some y := by
  intro l
  induction l with
  | nil =>
    intro ys h y hy
    simp only [List.mapM_nil, pure, Option.some_inj] at h
    subst h
    simp at hy
  | cons a as ih =>
    intro ys h y hy
    rw [List.mapM_cons] at h
    simp only [Option.bind_eq_bind, Option.bind_eq_some, Option.pure_def,
      Option.some_inj] at h
    obtain ⟨b, hb, bs, hbs, rfl⟩ := h
    rcases List.mem_cons.mp hy with rfl | hy'
    · exact ⟨a, List.mem_cons_self _ _, hb⟩
    · obtain ⟨x, hx, hfx⟩ := ih hbs y hy'
      exact ⟨x, List.mem_cons_of_mem _ hx, hfx⟩

theorem perm_get_cons_eraseIdx (l : List (Nat × Nat)) (i : Fin l.length) :
    l.Perm (l.get i :: l.eraseIdx i) := by
  have h1 : l.get i ∈ l := l.get_mem i.1 i.isLt
  exact (List.perm_cons_erase h1).trans
    (List.Perm.cons _ (List.erase_getElem i.isLt))

theorem shuffleStep_perm (rng : RNG) :
    ∀ (fuel k : Nat) (l : List (Nat × Nat)), l.length ≤ fuel →
      (shuffleStep rng fuel k l).Perm l := by
  intro fuel
  induction fuel with
  | zero =>
    intro k l _
    cases l <;> simp [shuffleStep]
  | succ n ih =>
    intro k l hl
    cases l with
    | nil => simp [shuffleStep]
    | cons a as =>
      rw [shuffleStep]
      have hi : rng k % (a :: as).length < (a :: as).length :=
        Nat.mod_lt _ (Nat.succ_pos as.length)
      have hlen : ((a :: as).eraseIdx (rng k % (a :: as).length)).length ≤ n := by
        have := List.length_eraseIdx_add_one hi
        simp only [List.length_cons] at hl this ⊢
        omega
      exact ((ih (k + 1) _ hlen).cons _).trans
        (perm_get_cons_eraseIdx (a :: as) ⟨_, hi⟩).symm

theorem pyShuffle_perm (rng : RNG) (l : List (Nat × Nat)) :
    (pyShuffle rng l).Perm l :=
  shuffleStep_perm rng l.length 0 l le_rfl

/-! ### Arithmetic facts about ranges, slices and tile shapes -/

theorem mem_npArange {start : Nat} {stop : Int} {step : Nat} {x : Nat}
    (hx : x ∈ npArange start stop step) : start ≤ x ∧ (x : Int) < stop := by
  unfold npArange at hx
  split at hx
  · simp at hx
  · rename_i hcond
    push_neg at hcond
    obtain ⟨hlt, hstep⟩ := hcond
    simp only [List.mem_map, List.mem_range] at hx
    obtain ⟨i, hi, rfl⟩ := hx
    refine ⟨Nat.le_add_right _ _, ?_⟩
    set d := (stop - (start : Int)).toNat with hd
    have hdpos : (d : Int) = stop - start := by
      rw [hd]
      exact Int.toNat_of_nonneg (by omega)
    have h1 : i + 1 ≤ (d + step - 1) / step := hi
    have h2 : (i + 1) * step ≤ ((d + step - 1) / step) * step :=
      Nat.mul_le_mul_right _ h1
    have h3 : ((d + step - 1) / step) * step ≤ d + step - 1 :=
      Nat.div_mul_le_self _ _
    have h4 : (i + 1) * step = i * step + step := by ring
    have h5 : i * step < d := by omega
    have h6 : ((i * step : Nat) : Int) < (d : Int) := by exact_mod_cast h5
    push_cast
    omega

theorem sliceIdxs_length {n : Nat} {s e : Int} (hs : 0 ≤ s) (hse : s ≤ e)
    (he : e ≤ n) : (sliceIdxs n s e).length = (e - s).toNat := by
  unfold sliceIdxs
  rw [if_neg (by omega), if_neg (by omega)]
  simp only [List.length_range']
  omega

theorem tileDims_tileAt (sw : Swath) (o1 o2 : Nat) (r c : Int) :
    tileDims (tileAt sw o1 o2 r c) =
      (sw.bands,
       List.replicate sw.bands (sliceIdxs sw.rows (r - o1) (r + o2 + 1)).length,
       List.replicate sw.bands
         (List.replicate (sliceIdxs sw.rows (r - o1) (r + o2 + 1)).length
           (sliceIdxs sw.cols (c - o1) (c + o2 + 1)).length)) := by
  unfold tileDims tileAt sliceTile
  refine Prod.ext ?_ (Prod.ext ?_ ?_)
  · simp
  · simp only [List.map_map, Function.comp_def, List.length_map]
    rw [show (fun _ : Nat => (sliceIdxs sw.rows (r - o1) (r + o2 + 1)).length) =
      Function.const Nat (sliceIdxs sw.rows (r - o1) (r + o2 + 1)).length from rfl]
    rw [List.map_const, List.length_range]
  · simp only [List.map_map, Function.comp_def, List.map_map]
    have hinner : ∀ b : Nat,
        ((sliceIdxs sw.rows (r - o1) (r + o2 + 1)).map fun x =>
          ((sliceIdxs sw.cols (c - o1) (c + o2 + 1)).map fun y => sw.data b x y).length) =
        List.replicate (sliceIdxs sw.rows (r - o1) (r + o2 + 1)).length
          (sliceIdxs sw.cols (c - o1) (c + o2 + 1)).length := by
      intro b
      simp only [List.length_map]
      rw [show (fun _ : Nat => (sliceIdxs sw.cols (c - o1) (c + o2 + 1)).length) =
        Function.const Nat (sliceIdxs sw.cols (c - o1) (c + o2 + 1)).length from rfl]
      rw [List.map_const]
    simp only [hinner]
    rw [show (fun _ : Nat => List.replicate (sliceIdxs sw.rows (r - o1) (r + o2 + 1)).length
      (sliceIdxs sw.cols (c - o1) (c + o2 + 1)).length) =
      Function.const Nat (List.replicate (sliceIdxs sw.rows (r - o1) (r + o2 + 1)).length
        (sliceIdxs sw.cols (c - o1) (c + o2 + 1)).length) from rfl]
    rw [List.map_const, List.length_range]

theorem tileDims_tileAt_of_bounds {sw : Swath} {o1 o2 : Nat} {r c : Int}
    (hr0 : 0 ≤ r - o1) (hr1 : r + o2 + 1 ≤ sw.rows)
    (hc0 : 0 ≤ c - o1) (hc1 : c + o2 + 1 ≤ sw.cols) :
    tileDims (tileAt sw o1 o2 r c) =
      (sw.bands, List.replicate sw.bands (o1 + o2 + 1),
       List.replicate sw.bands (List.replicate (o1 + o2 + 1) (o1 + o2 + 1))) := by
  rw [tileDims_tileAt,
    sliceIdxs_length hr0 (by omega) hr1,
    sliceIdxs_length hc0 (by omega) hc1]
  have hrw : (r + o2 + 1 - (r - o1)).toNat = o1 + o2 + 1 := by omega
  have hcw : (c + o2 + 1 - (c - o1)).toNat = o1 + o2 + 1 := by omega
  rw [hrw, hcw]

theorem randint_eq_some {a b : Int} {r : Nat} {h : Int}
    (hr : randint a b r = some h) : a ≤ h ∧ h ≤ b := by
  unfold randint at hr
  split at hr
  · exact absurd hr (by simp)
  · rename_i hab
    push_neg at hab
    rw [Option.some_inj] at hr
    subst hr
    have hm : (b - a + 1).toNat = b - a + 1 := Int.toNat_of_nonneg (by omega)
    have hmod : (r % (b - a + 1).toNat : Nat) < (b - a + 1).toNat := by
      refine Nat.mod_lt _ ?_
      omega
    constructor
    · omega
    · have : ((r % (b - a + 1).toNat : Nat) : Int) < ((b - a + 1).toNat : Int) := by
        exact_mod_cast hmod
      omega

/-! ### Inversion of each sampler into the shared `assemble` step,
and bounds on the centre positions each sampler can generate. -/

theorem striding_eq_some {sw : Swath} {ts stride : Nat} {rng : RNG}
    {out : List Tile × List Meta}
    (h : striding_tile_extract_from_file sw ts stride rng = some out) :
    stride ≠ 0 ∧
    assemble sw (tileOffsets ts).1 (tileOffsets ts).2
      ((stridingCenters sw ts stride).map fun p => ((p.1 : Int), (p.2 : Int))) =
      some out := by
  unfold striding_tile_extract_from_file at h
  split at h
  · exact absurd h (by simp)
  · rename_i hs
    exact ⟨hs, h⟩

theorem clouds_eq_some {sw : Swath} {n ts stride : Nat} {rng : RNG}
    {out : List Tile × List Meta}
    (h : extract_random_sample_where_clouds sw n ts stride rng = some out) :
    stride ≠ 0 ∧
    assemble sw (tileOffsets ts).1 (tileOffsets ts).2
      (((pyShuffle rng (cloudMasked sw ts stride)).take n).map
        fun p => ((p.1 : Int), (p.2 : Int))) = some out := by
  unfold extract_random_sample_where_clouds at h
  split at h
  · exact absurd h (by simp)
  · rename_i hs
    exact ⟨hs, h⟩

theorem random_eq_some {sw : Swath} {ts : Nat} {rng : RNG}
    {out : List Tile × List Meta}
    (h : random_tile_extract_from_file sw ts rng = some out) :
    ∃ cs, randomCenters sw ts rng = some cs ∧
      assemble sw (tileOffsets ts).1 (tileOffsets ts).2 cs = some out := by
  unfold random_tile_extract_from_file at h
  cases hc : randomCenters sw ts rng with
  | none => rw [hc] at h; exact absurd h (by simp [Bind.bind])
  | some cs =>
    rw [hc] at h
    exact ⟨cs, rfl, h⟩

theorem label_eq_some {sw : Swath} {ts : Nat} {out : List Tile × List Meta}
    (h : extract_label_tiles sw ts = some out) :
    assemble sw (tileOffsets ts).1 (tileOffsets ts).2
      ((labelKept sw ts).map fun p => ((p.1 : Int), (p.2 : Int))) = some out := h

theorem randomCenterCol_bound {sw : Swath} {offset : Nat} {rng : RNG} {k : Nat}
    {h : Int} (hh : randomCenterCol sw offset rng k = some h) :
    ((offset : Int) + 1 ≤ h ∧ h ≤ ((sw.cols / 2 : Nat) : Int) - (offset + 1)) ∨
    (((sw.cols / 2 : Nat) : Int) + (offset + 1) ≤ h ∧ h ≤ (sw.cols : Int) - (offset + 1)) := by
  by_cases hc : rng (2 * k) % 2 = 0
  · simp only [randomCenterCol, if_pos hc] at hh
    exact Or.inl (randint_eq_some hh)
  · simp only [randomCenterCol, if_neg hc] at hh
    exact Or.inr (randint_eq_some hh)

theorem randomCenters_col_bound {sw : Swath} {ts : Nat} {rng : RNG}
    {cs : List (Int × Int)} (h : randomCenters sw ts rng = some cs) :
    ∀ p ∈ cs,
      (((tileOffsets ts).1 : Int) + 1 ≤ p.2 ∧
        p.2 ≤ ((sw.cols / 2 : Nat) : Int) - ((tileOffsets ts).1 + 1)) ∨
      (((sw.cols / 2 : Nat) : Int) + ((tileOffsets ts).1 + 1) ≤ p.2 ∧
        p.2 ≤ (sw.cols : Int) - ((tileOffsets ts).1 + 1)) := by
  intro p hp
  unfold randomCenters at h
  obtain ⟨kv, _, hkv⟩ := mapM_option_mem h p hp
  rw [Option.map_eq_some'] at hkv
  obtain ⟨col, hcol, hpair⟩ := hkv
  have hcol2 : p.2 = col := by rw [← hpair]
  rw [hcol2]
  exact randomCenterCol_bound hcol

theorem mem_stridingCenters_col {sw : Swath} {ts stride : Nat} {p : Nat × Nat}
    (hp : p ∈ stridingCenters sw ts stride) :
    ((tileOffsets ts).1 + 1 ≤ p.2 ∧
      (p.2 : Int) < ((sw.cols / 2 : Nat) : Int) - ((tileOffsets ts).1 + 1)) ∨
    (sw.cols / 2 + ((tileOffsets ts).1 + 1) ≤ p.2 ∧
      (p.2 : Int) < (sw.cols : Int) - ((tileOffsets ts).1 + 1)) := by
  unfold stridingCenters at hp
  simp only [List.mem_flatMap, List.mem_map] at hp
  obtain ⟨v, _, h, hh, rfl⟩ := hp
  rcases List.mem_append.mp hh with hl | hu
  · obtain ⟨h1, h2⟩ := mem_npArange hl
    left
    refine ⟨h1, ?_⟩
    push_cast at h2 ⊢
    omega
  · obtain ⟨h1, h2⟩ := mem_npArange hu
    exact Or.inr ⟨h1, h2⟩

theorem mem_cloudCandidates_bounds {sw : Swath} {ts stride : Nat} {p : Nat × Nat}
    (hp : p ∈ cloudCandidates sw ts stride) :
    ((tileOffsets ts).1 + 1 ≤ p.1 ∧
      (p.1 : Int) < (sw.rows : Int) - ((tileOffsets ts).2 + 1)) ∧
    ((tileOffsets ts).1 + 1 ≤ p.2 ∧
      (p.2 : Int) < (sw.cols : Int) - ((tileOffsets ts).2 + 1)) := by
  unfold cloudCandidates at hp
  simp only [List.mem_flatMap, List.mem_map] at hp
  obtain ⟨v, hv, h, hh, rfl⟩ := hp
  obtain ⟨hv1, hv2⟩ := mem_npArange hv
  have hhalf : ((sw.cols / 2 : Nat) : Int) ≤ (sw.cols : Int) := by
    exact_mod_cast Nat.div_le_self sw.cols 2
  refine ⟨⟨hv1, hv2⟩, ?_⟩
  rcases List.mem_append.mp hh with hl | hu
  · obtain ⟨h1, h2⟩ := mem_npArange hl
    refine ⟨h1, ?_⟩
    omega
  · obtain ⟨h1, h2⟩ := mem_npArange hu
    refine ⟨by omega, h2⟩

/-! ### Shared consequences of the `assemble` step -/

theorem assemble_out_prop {sw : Swath} {o1 o2 : Nat} {cs : List (Int × Int)}
    {out : List Tile × List Meta} (h : assemble sw o1 o2 cs = some out) :
    out.1.length = out.2.length ∧ ∀ m ∈ out.2,
      m.1.2 - m.1.1 = (o1 : Int) + o2 + 1 ∧
      m.2.2 - m.2.1 = (o1 : Int) + o2 + 1 := by
  obtain ⟨h1, h2, _⟩ := assemble_eq_some h
  constructor
  · rw [h1, h2]
    simp
  · intro m hm
    rw [h2] at hm
    obtain ⟨p, _, rfl⟩ := List.mem_map.mp hm
    unfold metaAt
    constructor <;> ring

theorem assemble_roundtrip {sw : Swath} {o1 o2 : Nat} {cs : List (Int × Int)}
    {out : List Tile × List Meta} (h : assemble sw o1 o2 cs = some out) :
    ∀ (i : Nat) (m : Meta), out.2[i]? = some m →
      out.1[i]? = some (sliceTile sw m.1.1 m.1.2 m.2.1 m.2.2) := by
  obtain ⟨h1, h2, _⟩ := assemble_eq_some h
  intro i m hm
  rw [h2, List.getElem?_map] at hm
  rw [h1, List.getElem?_map]
  cases hp : cs[i]? with
  | none => rw [hp] at hm; simp at hm
  | some p =>
    rw [hp] at hm
    simp only [Option.map_some', Option.some_inj] at hm
    simp only [Option.map_some', Option.some_inj]
    rw [← hm]
    rfl

/-! ### Claim theorems -/

/-- C1: `extract_labels_and_cloud_tiles` fails with the distinguishable
shape-mismatch error exactly when the swath's shape differs from
(27, 2030, 1350); on a violating shape it returns the bare error (no output
arrays, nothing extracted), and on a conforming shape the shape error is
never produced (any failure is the distinct stacking error). -/
theorem C1_shape_gate (sw : Swath) (ts stride : Nat) (rng : RNG) :
    extract_labels_and_cloud_tiles sw ts stride rng =
        Except.error ExtractErr.shapeError ↔
      ¬(sw.bands = 27 ∧ sw.rows = 2030 ∧ sw.cols = 1350) := by
  constructor
  · intro h hshape
    unfold extract_labels_and_cloud_tiles at h
    rw [if_pos hshape] at h
    cases hl : extract_label_tiles sw ts with
    | none =>
      rw [hl] at h
      simp at h
    | some lp =>
      obtain ⟨lpay, lmeta⟩ := lp
      rw [hl] at h
      dsimp only at h
      cases hu : extract_random_sample_where_clouds sw lpay.length ts stride rng with
      | none =>
        rw [hu] at h
        simp at h
      | some up =>
        obtain ⟨upay, umeta⟩ := up
        rw [hu] at h
        simp at h
  · intro h
    unfold extract_labels_and_cloud_tiles
    rw [if_neg h]

/-- C2: for every call of each of the four samplers that returns, the tile
stack and the metadata list have equal length and every metadata entry has
range width `offset_low + offset_high + 1` on both axes. -/
theorem C2_parallel_lengths_and_widths (sw : Swath) (ts stride n : Nat)
    (rng : RNG) :
    (∀ out, random_tile_extract_from_file sw ts rng = some out →
      out.1.length = out.2.length ∧ ∀ m ∈ out.2,
        m.1.2 - m.1.1 = ((tileOffsets ts).1 : Int) + (tileOffsets ts).2 + 1 ∧
        m.2.2 - m.2.1 = ((tileOffsets ts).1 : Int) + (tileOffsets ts).2 + 1) ∧
    (∀ out, striding_tile_extract_from_file sw ts stride rng = some out →
      out.1.length = out.2.length ∧ ∀ m ∈ out.2,
        m.1.2 - m.1.1 = ((tileOffsets ts).1 : Int) + (tileOffsets ts).2 + 1 ∧
        m.2.2 - m.2.1 = ((tileOffsets ts).1 : Int) + (tileOffsets ts).2 + 1) ∧
    (∀ out, extract_random_sample_where_clouds sw n ts stride rng = some out →
      out.1.length = out.2.length ∧ ∀ m ∈ out.2,
        m.1.2 - m.1.1 = ((tileOffsets ts).1 : Int) + (tileOffsets ts).2 + 1 ∧
        m.2.2 - m.2.1 = ((tileOffsets ts).1 : Int) + (tileOffsets ts).2 + 1) ∧
    (∀ out, extract_label_tiles sw ts = some out →
      out.1.length = out.2.length ∧ ∀ m ∈ out.2,
        m.1.2 - m.1.1 = ((tileOffsets ts).1 : Int) + (tileOffsets ts).2 + 1 ∧
        m.2.2 - m.2.1 = ((tileOffsets ts).1 : Int) + (tileOffsets ts).2 + 1) := by
  refine ⟨?_, ?_, ?_, ?_⟩
  · intro out h
    obtain ⟨cs, _, ha⟩ := random_eq_some h
    exact assemble_out_prop ha
  · intro out h
    exact assemble_out_prop (striding_eq_some h).2
  · intro out h
    exact assemble_out_prop (clouds_eq_some h).2
  · intro out h
    exact assemble_out_prop (label_eq_some h)

/-- Witness for C2: all four samplers return on `swFix` and the theorem
applies to each concrete call. -/
theorem C2_witness :
    (random_tile_extract_from_file swFix 3 rngZero = some outRandomFix ∧
      outRandomFix.1.length = outRandomFix.2.length) ∧
    (striding_tile_extract_from_file swFix 3 1 rngZero = some outStridingFix ∧
      outStridingFix.1.length = outStridingFix.2.length) ∧
    (extract_random_sample_where_clouds swFix 2 3 1 rngZero = some outCloudsFix ∧
      outCloudsFix.1.length = outCloudsFix.2.length) ∧
    (extract_label_tiles swFix 3 = some outLabelFix ∧
      outLabelFix.1.length = outLabelFix.2.length) := by
  have hth := C2_parallel_lengths_and_widths swFix 3 1 2 rngZero
  refine ⟨⟨by decide, (hth.1 outRandomFix (by decide)).1⟩,
          ⟨by decide, (hth.2.1 outStridingFix (by decide)).1⟩,
          ⟨by decide, (hth.2.2.1 outCloudsFix (by decide)).1⟩,
          ⟨by decide, (hth.2.2.2 outLabelFix (by decide)).1⟩⟩

/-- C3: for every sampler call that returns, slicing the swath at the i-th
recorded metadata ranges (first tuple on the row axis, second on the column
axis) reproduces the i-th returned tile exactly. -/
theorem C3_metadata_roundtrip (sw : Swath) (ts stride n : Nat) (rng : RNG) :
    (∀ out, random_tile_extract_from_file sw ts rng = some out →
      ∀ (i : Nat) (m : Meta), out.2[i]? = some m →
        out.1[i]? = some (sliceTile sw m.1.1 m.1.2 m.2.1 m.2.2)) ∧
    (∀ out, striding_tile_extract_from_file sw ts stride rng = some out →
      ∀ (i : Nat) (m : Meta), out.2[i]? = some m →
        out.1[i]? = some (sliceTile sw m.1.1 m.1.2 m.2.1 m.2.2)) ∧
    (∀ out, extract_random_sample_where_clouds sw n ts stride rng = some out →
      ∀ (i : Nat) (m : Meta), out.2[i]? = some m →
        out.1[i]? = some (sliceTile sw m.1.1 m.1.2 m.2.1 m.2.2)) ∧
    (∀ out, extract_label_tiles sw ts = some out →
      ∀ (i : Nat) (m : Meta), out.2[i]? = some m →
        out.1[i]? = some (sliceTile sw m.1.1 m.1.2 m.2.1 m.2.2)) := by
  refine ⟨?_, ?_, ?_, ?_⟩
  · intro out h
    obtain ⟨cs, _, ha⟩ := random_eq_some h
    exact assemble_roundtrip ha
  · intro out h
    exact assemble_roundtrip (striding_eq_some h).2
  · intro out h
    exact assemble_roundtrip (clouds_eq_some h).2
  · intro out h
    exact assemble_roundtrip (label_eq_some h)

/-- Witness for C3: the round-trip theorem applied to index 0 of each of
the four concrete sampler outputs on `swFix`. -/
theorem C3_witness :
    (outRandomFix.1[0]? = some (sliceTile swFix 1 4 1 4)) ∧
    (outStridingFix.1[0]? = some (sliceTile swFix 1 4 1 4)) ∧
    (outCloudsFix.1[0]? = some (sliceTile swFix 1 4 1 4)) ∧
    (outLabelFix.1[0]? = some (sliceTile swFix 1 4 1 4)) := by
  have hth := C3_metadata_roundtrip swFix 3 1 2 rngZero
  refine ⟨hth.1 outRandomFix (by decide) 0 ((1, 4), (1, 4)) (by decide),
          hth.2.1 outStridingFix (by decide) 0 ((1, 4), (1, 4)) (by decide),
          hth.2.2.1 outCloudsFix (by decide) 0 ((1, 4), (1, 4)) (by decide),
          hth.2.2.2 outLabelFix (by decide) 0 ((1, 4), (1, 4)) (by decide)⟩

/-- C4 (counterexample): on a 12-column swath with tile_size 3 and stride 1
the strided sampler produces the centre (2, 8); column 8 lies inside the
claimed closed exclusion band [12/2 - offset_low - 1, 12/2 + offset_low + 1]
= [4, 8], and the call returns normally with that tile recorded. -/
theorem C4_counterexample :
    (2, 8) ∈ stridingCenters swGrid 3 1 ∧
    striding_tile_extract_from_file swGrid 3 1 rngZero = some outStridingGrid ∧
    ((1, 4), (7, 10)) ∈ outStridingGrid.2 ∧
    (((swGrid.cols / 2 : Nat) : Int) - (tileOffsets 3).1 - 1 ≤ (8 : Int) ∧
      (8 : Int) ≤ ((swGrid.cols / 2 : Nat) : Int) + (tileOffsets 3).1 + 1) := by
  refine ⟨by decide, by decide, by decide, by decide⟩

/-- C4 (amended): no centre column produced by the uniform random or the
strided sampler lies in the closed interval
[breadth//2 - offset_low, breadth//2 + offset_low]; the endpoints
breadth//2 - offset_low - 1 and breadth//2 + offset_low + 1 of the band
claimed by the spec can however be hit. -/
theorem C4_exclusion_band_amended (sw : Swath) (ts stride : Nat) (rng : RNG) :
    (∀ p ∈ stridingCenters sw ts stride,
      ¬(((sw.cols / 2 : Nat) : Int) - (tileOffsets ts).1 ≤ (p.2 : Int) ∧
        (p.2 : Int) ≤ ((sw.cols / 2 : Nat) : Int) + (tileOffsets ts).1)) ∧
    (∀ cs, randomCenters sw ts rng = some cs → ∀ p ∈ cs,
      ¬(((sw.cols / 2 : Nat) : Int) - (tileOffsets ts).1 ≤ p.2 ∧
        p.2 ≤ ((sw.cols / 2 : Nat) : Int) + (tileOffsets ts).1)) := by
  constructor
  · intro p hp hband
    obtain ⟨hb1, hb2⟩ := hband
    rcases mem_stridingCenters_col hp with ⟨h1, h2⟩ | ⟨h1, h2⟩
    · omega
    · have h1' : ((sw.cols / 2 + ((tileOffsets ts).1 + 1) : Nat) : Int) ≤ (p.2 : Int) := by
        exact_mod_cast h1
      push_cast at h1'
      omega
  · intro cs hcs p hp hband
    obtain ⟨hb1, hb2⟩ := hband
    rcases randomCenters_col_bound hcs p hp with ⟨h1, h2⟩ | ⟨h1, h2⟩ <;> omega

/-- Witness for C4 (amended): both conjuncts applied to the concrete
centre (2, 2) produced by each sampler on `swGrid`. -/
theorem C4_witness :
    ¬(((swGrid.cols / 2 : Nat) : Int) - (tileOffsets 3).1 ≤ ((2 : Nat) : Int) ∧
      ((2 : Nat) : Int) ≤ ((swGrid.cols / 2 : Nat) : Int) + (tileOffsets 3).1) ∧
    ¬(((swGrid.cols / 2 : Nat) : Int) - (tileOffsets 3).1 ≤ ((2, 2) : Int × Int).2 ∧
      ((2, 2) : Int × Int).2 ≤ ((swGrid.cols / 2 : Nat) : Int) + (tileOffsets 3).1) := by
  have hth := C4_exclusion_band_amended swGrid 3 1 rngZero
  exact ⟨hth.1 (2, 2) (by decide), hth.2 csRandomGrid (by decide) (2, 2) (by decide)⟩

/-- C5 (counterexample): the all-zero swath has zero qualifying positions,
and `extract_label_tiles` then fails (np.stack of an empty list) instead
of returning an empty tile stack, so the output cardinality cannot
legitimately be zero. -/
theorem C5_counterexample :
    qualPositions swZero = [] ∧ extract_label_tiles swZero 3 = none := by
  refine ⟨by decide, by decide⟩

/-- C5 (amended): whenever `extract_label_tiles` returns, it returns
exactly one tile per qualifying, non-edge position, in row-major scan
order (the tiles and metadata are the ordered image of `labelKept`, the
row-major qualifying positions whose row is at least offset_low and at
most swath_length - offset_high); with zero surviving positions the call
fails instead of returning an empty result. -/
theorem C5_label_cardinality_amended (sw : Swath) (ts : Nat) :
    (∀ out, extract_label_tiles sw ts = some out →
      out.1.length = (labelKept sw ts).length ∧
      out.1 = (labelKept sw ts).map
        (fun p => tileAt sw (tileOffsets ts).1 (tileOffsets ts).2 (p.1 : Int) (p.2 : Int)) ∧
      out.2 = (labelKept sw ts).map
        (fun p => metaAt (tileOffsets ts).1 (tileOffsets ts).2 (p.1 : Int) (p.2 : Int))) ∧
    (labelKept sw ts = [] → extract_label_tiles sw ts = none) := by
  constructor
  · intro out h
    obtain ⟨h1, h2, _⟩ := assemble_eq_some (label_eq_some h)
    refine ⟨?_, ?_, ?_⟩
    · rw [h1]
      simp
    · rw [h1, List.map_map]
      rfl
    · rw [h2, List.map_map]
      rfl
  · intro hk
    simp [extract_label_tiles, hk, assemble, npStack]

/-- Witness for C5 (amended): on `swFix` the extractor returns and its tile
count equals the number of surviving qualifying positions. -/
theorem C5_witness :
    extract_label_tiles swFix 3 = some outLabelFix ∧
    outLabelFix.1.length = (labelKept swFix 3).length := by
  have h := (C5_label_cardinality_amended swFix 3).1 outLabelFix (by decide)
  exact ⟨by decide, h.1⟩

/-- C6: the cloud-masked random sampler returns at most `number_of_labels`
tiles; the returned tiles are cut exactly at the chosen centre positions,
and every chosen centre has a truthy value at the designated mask band
(band index -9). -/
theorem C6_cloud_sampler_bound (sw : Swath) (n ts stride : Nat) (rng : RNG) :
    ∀ out, extract_random_sample_where_clouds sw n ts stride rng = some out →
      out.1.length ≤ n ∧
      out.1 = ((pyShuffle rng (cloudMasked sw ts stride)).take n).map
        (fun p => tileAt sw (tileOffsets ts).1 (tileOffsets ts).2 (p.1 : Int) (p.2 : Int)) ∧
      ∀ p ∈ (pyShuffle rng (cloudMasked sw ts stride)).take n,
        maskVal sw p.1 p.2 ≠ 0 := by
  intro out h
  obtain ⟨_, ha⟩ := clouds_eq_some h
  obtain ⟨h1, _, _⟩ := assemble_eq_some ha
  refine ⟨?_, ?_, ?_⟩
  · rw [h1]
    simp only [List.length_map, List.length_take]
    omega
  · rw [h1, List.map_map]
    rfl
  · intro p hp
    have hp2 : p ∈ pyShuffle rng (cloudMasked sw ts stride) :=
      List.take_subset n _ hp
    have hp3 : p ∈ cloudMasked sw ts stride :=
      (pyShuffle_perm rng _).mem_iff.mp hp2
    have hf := List.of_mem_filter hp3
    simpa using hf

/-- Witness for C6: on `swFix` with two tiles requested, the returned stack
has at most two tiles and the first chosen centre (2, 2) is cloudy. -/
theorem C6_witness :
    outCloudsFix.1.length ≤ 2 ∧ maskVal swFix 2 2 ≠ 0 := by
  have hth := C6_cloud_sampler_bound swFix 2 3 1 rngZero outCloudsFix (by decide)
  exact ⟨hth.1, hth.2.2 (2, 2) (by decide)⟩

/-- C7 (counterexample): the all-zero swath has a nonempty candidate grid
but zero cloudy candidates; with one tile requested the sampler fails
(np.stack of an empty list) instead of returning an empty result without
error. -/
theorem C7_counterexample :
    cloudCandidates swZero 3 1 ≠ [] ∧
    cloudMasked swZero 3 1 = [] ∧
    extract_random_sample_where_clouds swZero 1 3 1 rngZero = none := by
  refine ⟨by decide, by decide, by decide⟩

/-- C7 (amended): when fewer cloudy candidates exist than requested but at
least one exists, the sampler returns every available candidate (no
padding, no error); when no cloudy candidate exists the call fails instead
of returning an empty result. -/
theorem C7_shortfall_amended (sw : Swath) (n ts stride : Nat) (rng : RNG)
    (hst : stride ≠ 0) (hlt : (cloudMasked sw ts stride).length < n) :
    (cloudMasked sw ts stride ≠ [] →
      ∃ out, extract_random_sample_where_clouds sw n ts stride rng = some out ∧
        out.1.length = (cloudMasked sw ts stride).length ∧
        out.2.length = (cloudMasked sw ts stride).length) ∧
    (cloudMasked sw ts stride = [] →
      extract_random_sample_where_clouds sw n ts stride rng = none) := by
  constructor
  · intro hne
    have hlen : (pyShuffle rng (cloudMasked sw ts stride)).length =
        (cloudMasked sw ts stride).length :=
      (pyShuffle_perm rng _).length_eq
    have htake : (pyShuffle rng (cloudMasked sw ts stride)).take n =
        pyShuffle rng (cloudMasked sw ts stride) :=
      List.take_of_length_le (by omega)
    set o1 := (tileOffsets ts).1 with ho1
    set o2 := (tileOffsets ts).2 with ho2
    have hdims : ∀ q ∈ pyShuffle rng (cloudMasked sw ts stride),
        tileDims (tileAt sw o1 o2 (q.1 : Int) (q.2 : Int)) =
          (sw.bands, List.replicate sw.bands (o1 + o2 + 1),
           List.replicate sw.bands (List.replicate (o1 + o2 + 1) (o1 + o2 + 1))) := by
      intro q hq
      have hq2 : q ∈ cloudMasked sw ts stride :=
        (pyShuffle_perm rng _).mem_iff.mp hq
      have hq3 : q ∈ cloudCandidates sw ts stride :=
        List.mem_of_mem_filter hq2
      obtain ⟨⟨hr1, hr2⟩, hc1, hc2⟩ := mem_cloudCandidates_bounds hq3
      exact tileDims_tileAt_of_bounds (by omega) (by omega) (by omega) (by omega)
    have hshne : pyShuffle rng (cloudMasked sw ts stride) ≠ [] := by
      intro hsh
      apply hne
      have hlen0 := hlen
      rw [hsh] at hlen0
      simp only [List.length_nil] at hlen0
      exact List.eq_nil_of_length_eq_zero hlen0.symm
    have hcs : ((pyShuffle rng (cloudMasked sw ts stride)).map
        fun p => ((p.1 : Int), (p.2 : Int))) ≠ [] :=
      fun hc => hshne (List.map_eq_nil_iff.mp hc)
    have hasm := @assemble_eq_some_self sw o1 o2
      ((pyShuffle rng (cloudMasked sw ts stride)).map fun p => ((p.1 : Int), (p.2 : Int)))
      hcs ?_
    · refine ⟨(((pyShuffle rng (cloudMasked sw ts stride)).map
            fun p => ((p.1 : Int), (p.2 : Int))).map (fun p => tileAt sw o1 o2 p.1 p.2),
          ((pyShuffle rng (cloudMasked sw ts stride)).map
            fun p => ((p.1 : Int), (p.2 : Int))).map (fun p => metaAt o1 o2 p.1 p.2)),
        ?_, ?_, ?_⟩
      · unfold extract_random_sample_where_clouds
        rw [if_neg hst, htake]
        exact hasm
      · simp [hlen]
      · simp [hlen]
    · intro p hp q hq
      obtain ⟨p', hp', rfl⟩ := List.mem_map.mp hp
      obtain ⟨q', hq', rfl⟩ := List.mem_map.mp hq
      rw [hdims p' hp', hdims q' hq']
  · intro hk
    unfold extract_random_sample_where_clouds
    rw [if_neg hst, hk]
    simp [pyShuffle, shuffleStep, assemble, npStack]

/-- Witness for C7 (amended): on `swFix` five tiles are requested but only
two cloudy candidates exist; the call returns exactly those two. -/
theorem C7_witness :
    extract_random_sample_where_clouds swFix 5 3 1 rngZero = some outCloudsAll ∧
    outCloudsAll.1.length = (cloudMasked swFix 3 1).length := by
  obtain ⟨out, hout, h1, _⟩ :=
    (C7_shortfall_amended swFix 5 3 1 rngZero (by decide) (by decide)).1 (by decide)
  have heq : out = outCloudsAll := by
    have hd : extract_random_sample_where_clouds swFix 5 3 1 rngZero =
        some outCloudsAll := by decide
    rw [hout] at hd
    exact Option.some_inj.mp hd
  subst heq
  exact ⟨hout, h1⟩

/-- C8 (counterexample): with tile_size 3 (offset_low = offset_high = 1)
the strided sampler's first tile on `swGrid` is centred at row 2 and its
recorded row range is (1, 4): the window is
[p - offset_low, p + offset_high + 1), not the claimed
[p - offset_low, p + offset_high), whose end would be 3. -/
theorem C8_counterexample :
    (stridingCenters swGrid 3 1).head? = some (2, 2) ∧
    striding_tile_extract_from_file swGrid 3 1 rngZero = some outStridingGrid ∧
    outStridingGrid.2.head? = some ((1, 4), (1, 4)) ∧
    (2 : Int) + (tileOffsets 3).2 ≠ 4 := by
  refine ⟨by decide, by decide, by decide, by decide⟩

/-- C8 (amended): offset_low = tile_size // 2 and offset_high = offset_low
for odd sizes, offset_low + 1 for even sizes, and the tile cut at centre p
spans the half-open window [p - offset_low, p + offset_high + 1) on each
spatial axis, with matching recorded metadata: one wider on the high side
than the claimed [p - offset_low, p + offset_high). -/
theorem C8_offsets_amended (ts : Nat) (_h : 0 < ts) :
    (tileOffsets ts).1 = ts / 2 ∧
    (tileOffsets ts).2 = (if ts % 2 = 1 then ts / 2 else ts / 2 + 1) ∧
    ∀ (sw : Swath) (r c : Int),
      tileAt sw (tileOffsets ts).1 (tileOffsets ts).2 r c =
        sliceTile sw (r - (ts / 2 : Nat))
          (r + ((if ts % 2 = 1 then ts / 2 else ts / 2 + 1 : Nat) : Int) + 1)
          (c - (ts / 2 : Nat))
          (c + ((if ts % 2 = 1 then ts / 2 else ts / 2 + 1 : Nat) : Int) + 1) ∧
      metaAt (tileOffsets ts).1 (tileOffsets ts).2 r c =
        ((r - (ts / 2 : Nat),
          r + ((if ts % 2 = 1 then ts / 2 else ts / 2 + 1 : Nat) : Int) + 1),
         (c - (ts / 2 : Nat),
          c + ((if ts % 2 = 1 then ts / 2 else ts / 2 + 1 : Nat) : Int) + 1)) := by
  have h2 : (tileOffsets ts).2 = if ts % 2 = 1 then ts / 2 else ts / 2 + 1 := by
    unfold tileOffsets
    rcases Nat.mod_two_eq_zero_or_one ts with he | ho
    · simp [he]
    · simp [ho]
  refine ⟨rfl, h2, ?_⟩
  intro sw r c
  constructor
  · unfold tileAt
    rw [h2]
    rfl
  · unfold metaAt
    rw [h2]
    rfl

/-- Witness for C8 (amended): the offset rule evaluated at the even tile
size 4. -/
theorem C8_witness :
    (tileOffsets 4).1 = 2 ∧ (tileOffsets 4).2 = 3 := by
  have h := C8_offsets_amended 4 (by decide)
  exact ⟨by rw [h.1], by rw [h.2.1]; decide⟩

/-- C10: in `extract_label_tiles` a qualifying position at row
swath_length - offset_high passes the bottom-edge guard (which skips only
strictly greater rows), its row window extends one past the last row and
is clamped to offset_low + offset_high rows instead of
offset_low + offset_high + 1, and the final stack fails because a
full-height tile is also present: concretely on `swEdge` (5 rows,
tile_size 3, qualifying rows 2 and 4). -/
theorem C10_bottom_edge_guard :
    qualPositions swEdge = [(2, 1), (4, 1)] ∧
    swEdge.rows - (tileOffsets 3).2 = 4 ∧
    labelKept swEdge 3 = [(2, 1), (4, 1)] ∧
    (sliceIdxs swEdge.rows (4 - 1) (4 + 1 + 1)).length =
      (tileOffsets 3).1 + (tileOffsets 3).2 ∧
    (sliceIdxs swEdge.rows (2 - 1) (2 + 1 + 1)).length =
      (tileOffsets 3).1 + (tileOffsets 3).2 + 1 ∧
    extract_label_tiles swEdge 3 = none := by
  refine ⟨by decide, by decide, by decide, by decide, by decide, by decide⟩

/-- C9: the strided sampler is deterministic: its output is a function of
the swath, tile size and stride alone, independent of the ambient random
state. -/
theorem C9_striding_deterministic (sw : Swath) (ts stride : Nat)
    (rng1 rng2 : RNG) :
    striding_tile_extract_from_file sw ts stride rng1 =
      striding_tile_extract_from_file sw ts stride rng2 := rfl

end Cumulo
